import Mathlib

/-!
Shallow embedding of the CopilotKit core sources:
  * `use-chat.ts` — the streaming request orchestrator (`runChatCompletion`,
    `append`, `reload`, `stop`);
  * the provider module — entry-point registry (`setEntryPoint`,
    `removeEntryPoint`), function-call dispatch
    (`entryPointsToFunctionCallHandler`) and schema compilation
    (`annotatedFunctionToChatCompletionFunction`).
JavaScript values that the code manipulates dynamically (parsed JSON,
`undefined`) are embedded as the inductive `JsValue`; the builtins
`JSON.parse` / `JSON.stringify` are modelled by `parseJson` / `stringifyJson`.
-/

set_option autoImplicit false

/-- A JavaScript value as the dispatch code observes it: the JSON data
values, `undefined` (what a missing property lookup yields), and `native`
— an opaque built-in function or object reached through the prototype
chain (such as `Object.prototype.toString` or the `__proto__` accessor's
result), identified by the key it was read under. Objects keep their
insertion-ordered own-field list. -/
inductive JsValue where
  | undefined
  | null
  | bool (b : Bool)
  | num (n : Int)
  | str (s : String)
  | arr (elems : List JsValue)
  | obj (fields : List (String × JsValue))
  | native (key : String)
  deriving Repr

/-- JS object assignment `o[k] = v`: an existing key keeps its position and
gets the new value; a fresh key is appended. -/
def setProp (fields : List (String × JsValue)) (k : String) (v : JsValue) :
    List (String × JsValue) :=
  if fields.any (fun p => p.1 = k) then
    fields.map (fun p => if p.1 = k then (k, v) else p)
  else
    fields ++ [(k, v)]

/-- Own-property lookup on an object's field list: `none` when the key is
not an own property. -/
def findField : List (String × JsValue) → String → Option JsValue
  | [], _ => none
  | (k', v) :: rest, k => if k' = k then some v else findField rest k

/-- The string-keyed properties of `Object.prototype`, which every plain
object (including the results of `JSON.parse` and the name-keyed records
the dispatch code builds) inherits. -/
def objectPrototypeKeys : List String :=
  ["constructor", "hasOwnProperty", "isPrototypeOf", "propertyIsEnumerable",
   "toLocaleString", "toString", "valueOf", "__proto__",
   "__defineGetter__", "__defineSetter__", "__lookupGetter__", "__lookupSetter__"]

/-- The string-keyed properties of `Array.prototype` (arrays inherit these
before `Object.prototype`). -/
def arrayPrototypeKeys : List String :=
  ["at", "concat", "constructor", "copyWithin", "entries", "every", "fill",
   "filter", "find", "findIndex", "findLast", "findLastIndex", "flat",
   "flatMap", "forEach", "includes", "indexOf", "join", "keys",
   "lastIndexOf", "length", "map", "pop", "push", "reduce", "reduceRight",
   "reverse", "shift", "slice", "some", "sort", "splice", "toLocaleString",
   "toReversed", "toSorted", "toSpliced", "toString", "unshift", "values",
   "with"]

/-- The string-keyed properties of `String.prototype`. -/
def stringPrototypeKeys : List String :=
  ["anchor", "at", "big", "blink", "bold", "charAt", "charCodeAt",
   "codePointAt", "concat", "constructor", "endsWith", "fixed",
   "fontcolor", "fontsize", "includes", "indexOf", "isWellFormed",
   "italics", "lastIndexOf", "length", "link", "localeCompare", "match",
   "matchAll", "normalize", "padEnd", "padStart", "repeat", "replace",
   "replaceAll", "search", "slice", "small", "split", "startsWith",
   "strike", "sub", "substr", "substring", "sup", "toLocaleLowerCase",
   "toLocaleUpperCase", "toLowerCase", "toString", "toUpperCase",
   "toWellFormed", "trim", "trimEnd", "trimStart", "valueOf"]

/-- The string-keyed properties of `Number.prototype`. -/
def numberPrototypeKeys : List String :=
  ["constructor", "toExponential", "toFixed", "toLocaleString",
   "toPrecision", "toString", "valueOf"]

/-- The string-keyed properties of `Boolean.prototype`. -/
def booleanPrototypeKeys : List String :=
  ["constructor", "toString", "valueOf"]

/-- The string-keyed properties a function exposes (own `length`/`name` and
`Function.prototype` members). -/
def functionPrototypeKeys : List String :=
  ["apply", "arguments", "bind", "call", "caller", "constructor",
   "length", "name", "toString"]

/-- Read key `k` through a prototype chain with the given key inventory:
prototype members are abstracted as opaque `native` values (their own
internals are never inspected by this code), anything else is
`undefined`. -/
def inheritedProp (chain : List String) (k : String) : JsValue :=
  if k ∈ chain then .native k else .undefined

/-- Accumulate the value of an all-digit key; `none` on a non-digit. -/
def keyToNatAux : List Char → Nat → Option Nat
  | [], acc => some acc
  | c :: rest, acc =>
      if c.isDigit then keyToNatAux rest (acc * 10 + (c.toNat - 48)) else none

/-- The canonical array-index reading of a property key: a nonempty
all-digit string with no superfluous leading zero (JS treats only the
canonical decimal rendering of an integer as an index). -/
def keyIndex? (k : String) : Option Nat :=
  match k.toList with
  | [] => none
  | ['0'] => some 0
  | '0' :: _ => none
  | cs => keyToNatAux cs 0

/-- Property read on a plain object created from parsed JSON: an own field
if present, else the inherited `Object.prototype` member, else
`undefined`. -/
def objProp (fields : List (String × JsValue)) (k : String) : JsValue :=
  match findField fields k with
  | some v => v
  | none => inheritedProp objectPrototypeKeys k

/-- JS property read `v[k]` as the dispatch code uses it (string keys).
`none` models a thrown `TypeError` (property read on `null`/`undefined`);
otherwise the own property (for arrays and strings: `length` and the
canonical numeric indices), then the prototype chain, then `undefined`. -/
def jsIndex (v : JsValue) (k : String) : Option JsValue :=
  match v with
  | .undefined => none
  | .null => none
  | .obj fields => some (objProp fields k)
  | .arr elems =>
      if k = "length" then some (.num elems.length)
      else match keyIndex? k with
        | some i =>
            match elems.get? i with
            | some w => some w
            | none => some .undefined
        | none => some (inheritedProp (arrayPrototypeKeys ++ objectPrototypeKeys) k)
  | .str s =>
      if k = "length" then some (.num s.length)
      else match keyIndex? k with
        | some i =>
            match s.toList.get? i with
            | some c => some (.str (String.mk [c]))
            | none => some .undefined
        | none => some (inheritedProp (stringPrototypeKeys ++ objectPrototypeKeys) k)
  | .num _ => some (inheritedProp (numberPrototypeKeys ++ objectPrototypeKeys) k)
  | .bool _ => some (inheritedProp (booleanPrototypeKeys ++ objectPrototypeKeys) k)
  | .native _ => some (inheritedProp (functionPrototypeKeys ++ objectPrototypeKeys) k)

/-! ### JSON.parse, modelled as a fuel-indexed recursive-descent routine -/

/-- Skip JSON whitespace. -/
def skipWs : List Char → List Char
  | c :: cs => if c = ' ' ∨ c = '\t' ∨ c = '\n' ∨ c = '\r' then skipWs cs else c :: cs
  | [] => []

/-- Read the body of a string literal (opening quote already consumed),
handling the standard escapes. Returns the string and the rest. -/
def readStringBody (acc : List Char) : List Char → Option (String × List Char)
  | [] => none
  | '\x22' :: rest => some (String.mk acc.reverse, rest)
  | '\x5c' :: e :: rest =>
      match e with
      | '\x22' => readStringBody ('\x22' :: acc) rest
      | '\x5c' => readStringBody ('\x5c' :: acc) rest
      | '/' => readStringBody ('/' :: acc) rest
      | 'n' => readStringBody ('\n' :: acc) rest
      | 't' => readStringBody ('\t' :: acc) rest
      | 'r' => readStringBody ('\r' :: acc) rest
      | 'b' => readStringBody ('\x08' :: acc) rest
      | 'f' => readStringBody ('\x0c' :: acc) rest
      | _ => none
  | '\x5c' :: [] => none
  | c :: rest => if c.val < 32 then none else readStringBody (c :: acc) rest

/-- Read a run of decimal digits. -/
def readDigits (acc : Nat) (seen : Bool) : List Char → Option (Nat × List Char)
  | c :: cs =>
      if c.isDigit then readDigits (acc * 10 + (c.toNat - 48)) true cs
      else if seen then some (acc, c :: cs) else none
  | [] => if seen then some (acc, []) else none

/-- Read a JSON number. The model covers integers; fractional or exponent
forms make the parse fail (the dispatch claims never depend on them). -/
def readNumber (cs : List Char) : Option (JsValue × List Char) :=
  match cs with
  | '-' :: rest =>
      match readDigits 0 false rest with
      | some (n, rest') => some (.num (-(n : Int)), rest')
      | none => none
  | _ =>
      match readDigits 0 false cs with
      | some (n, rest') => some (.num (n : Int), rest')
      | none => none

mutual

/-- Parse one JSON value; `fuel` bounds the recursion depth. -/
def parseValue : Nat → List Char → Option (JsValue × List Char)
  | 0, _ => none
  | fuel + 1, cs =>
    match skipWs cs with
    | '\x22' :: rest =>
        match readStringBody [] rest with
        | some (s, rest') => some (.str s, rest')
        | none => none
    | 't' :: 'r' :: 'u' :: 'e' :: rest => some (.bool true, rest)
    | 'f' :: 'a' :: 'l' :: 's' :: 'e' :: rest => some (.bool false, rest)
    | 'n' :: 'u' :: 'l' :: 'l' :: rest => some (.null, rest)
    | '\x7b' :: rest => parseMembers fuel (skipWs rest) []
    | '\x5b' :: rest => parseElems fuel (skipWs rest) []
    | cs' => readNumber cs'

/-- Parse the members of an object after `{` (or after a `,`), accumulating
fields with JS duplicate-key semantics (`setProp`). -/
def parseMembers : Nat → List Char → List (String × JsValue) → Option (JsValue × List Char)
  | fuel, cs, acc =>
    match fuel, cs, acc with
    | _, '\x7d' :: rest, [] => some (.obj [], rest)
    | fuel, cs, acc =>
      match fuel, cs, acc with
      | 0, _, _ => none
      | fuel + 1, cs, acc =>
        match skipWs cs with
        | '\x22' :: rest =>
            match readStringBody [] rest with
            | some (k, rest') =>
                match skipWs rest' with
                | ':' :: rest'' =>
                    match parseValue fuel rest'' with
                    | some (v, rest''') =>
                        let acc' := setProp acc k v
                        match skipWs rest''' with
                        | ',' :: more => parseMembers fuel more acc'
                        | '\x7d' :: more => some (.obj acc', more)
                        | _ => none
                    | none => none
                | _ => none
            | none => none
        | _ => none

/-- Parse the elements of an array after `[` (or after a `,`). -/
def parseElems : Nat → List Char → List JsValue → Option (JsValue × List Char)
  | fuel, cs, acc =>
    match fuel, cs, acc with
    | _, '\x5d' :: rest, [] => some (.arr [], rest)
    | fuel, cs, acc =>
      match fuel, cs, acc with
      | 0, _, _ => none
      | fuel + 1, cs, acc =>
        match parseValue fuel cs with
        | some (v, rest) =>
            match skipWs rest with
            | ',' :: more => parseElems fuel more (acc ++ [v])
            | '\x5d' :: more => some (.arr (acc ++ [v]), more)
            | _ => none
        | none => none

end

/-- `JSON.parse`: parse the whole string as one JSON value, rejecting
trailing garbage; `none` models the thrown `SyntaxError`. -/
def parseJson (s : String) : Option JsValue :=
  match parseValue (s.length + 1) s.toList with
  | some (v, rest) => if skipWs rest = [] then some v else none
  | none => none

/-! ### JSON.stringify -/

/-- Escape one character for a JSON string literal. -/
def escapeChar (c : Char) : String :=
  if c = '\x22' then "\x5c\x22"
  else if c = '\x5c' then "\x5c\x5c"
  else if c = '\n' then "\x5cn"
  else if c = '\t' then "\x5ct"
  else if c = '\r' then "\x5cr"
  else String.mk [c]

/-- Quote and escape a string for JSON output. -/
def quoteString (s : String) : String :=
  "\x22" ++ String.join (s.toList.map escapeChar) ++ "\x22"

mutual

/-- `JSON.stringify` on the values the client hands to the orchestrator.
A top-level `undefined` or function has no JSON rendering (the builtin
returns the value `undefined`); the model renders the marker string
"undefined" for it. -/
def stringifyJson : JsValue → String
  | .undefined => "undefined"
  | .native _ => "undefined"
  | .null => "null"
  | .bool true => "true"
  | .bool false => "false"
  | .num n => toString n
  | .str s => quoteString s
  | .arr elems => "\x5b" ++ stringifyElems elems ++ "\x5d"
  | .obj fields => "\x7b" ++ stringifyFields fields ++ "\x7d"

/-- Serialize array elements, comma-separated; an `undefined` or function
element renders as `null`, as the builtin does. -/
def stringifyElems : List JsValue → String
  | [] => ""
  | [.undefined] => "null"
  | [.native _] => "null"
  | [v] => stringifyJson v
  | .undefined :: rest => "null" ++ "," ++ stringifyElems rest
  | .native _ :: rest => "null" ++ "," ++ stringifyElems rest
  | v :: rest => stringifyJson v ++ "," ++ stringifyElems rest

/-- Serialize object fields, comma-separated; a field holding `undefined`
or a function is omitted, as the builtin does. -/
def stringifyFields : List (String × JsValue) → String
  | [] => ""
  | (_, .undefined) :: rest => stringifyFields rest
  | (_, .native _) :: rest => stringifyFields rest
  | (k, v) :: rest =>
      let restStr := stringifyFields rest
      quoteString k ++ ":" ++ stringifyJson v ++
        (if restStr = "" then "" else "," ++ restStr)

end

/-! ### Message model (use-chat.ts / types) -/

/-- Message role. -/
inductive Role where
  | system
  | user
  | assistant
  | function
  deriving DecidableEq, Repr

/-- The serialized function-call descriptor stored on an assistant message:
`{ name, arguments }` with `arguments` a JSON string. -/
structure FunctionCall where
  name : String
  arguments : String
  deriving DecidableEq, Repr

/-- A conversation message as `use-chat.ts` builds it: opaque `id`,
`createdAt` timestamp, role, growing `content`, and the optional
`function_call` field set when the model selects a function. -/
structure Message where
  id : String
  createdAt : Nat
  role : Role
  content : String
  function_call : Option FunctionCall := none
  deriving DecidableEq, Repr

/-! ### Function-call dispatch registry (provider module) -/

/-- One argument annotation: `name`, `required`, and the remaining
metadata fields (the opaque schema fragment that schema compilation
forwards inline). -/
structure ArgumentAnnotation where
  name : String
  required : Bool
  metadata : List (String × JsValue) := []
  deriving Repr

/-- An entry point: `AnnotatedFunction<any[]>`. The implementation is an
opaque callable; its identity is embedded as a value of type `α` so that
"which implementation was invoked, with which positional arguments" is
observable. -/
structure AnnotatedFunction (α : Type) where
  name : String
  description : String
  argumentAnnotations : List ArgumentAnnotation
  implementation : α
  deriving Repr

/-- The provider's `entryPoints` record: an insertion-ordered mapping from
registration id to entry point. -/
abbrev EntryPointRegistry (α : Type) := List (String × AnnotatedFunction α)

/-- `setEntryPoint(id, entryPoint)`: `{ ...prevPoints, [id]: entryPoint }` —
an existing id keeps its position and gets the new entry, a fresh id is
appended. -/
def setEntryPoint {α : Type} (reg : EntryPointRegistry α) (id : String)
    (entryPoint : AnnotatedFunction α) : EntryPointRegistry α :=
  if reg.any (fun p => p.1 = id) then
    reg.map (fun p => if p.1 = id then (id, entryPoint) else p)
  else
    reg ++ [(id, entryPoint)]

/-- `removeEntryPoint(id)`: copy the record and `delete` the key. -/
def removeEntryPoint {α : Type} (reg : EntryPointRegistry α) (id : String) :
    EntryPointRegistry α :=
  reg.filter (fun p => p.1 ≠ id)

/-- `Object.values(entryPoints)`: the registered functions in record order. -/
def registryValues {α : Type} (reg : EntryPointRegistry α) : List (AnnotatedFunction α) :=
  reg.map (fun p => p.2)

/-- The handler's first loop: build `entrypointsByFunctionName` by assigning
each entry point under its name (a later duplicate name overwrites an
earlier one) and look the call's name up among the record's own
properties. The loop's assignments define own properties for every name
except `__proto__`, whose assignment would instead hit the inherited
setter; the theorems over this model therefore assume no entry point is
named `__proto__`. -/
def lookupEntryPoint {α : Type} (entryPoints : List (AnnotatedFunction α))
    (name : String) : Option (AnnotatedFunction α) :=
  entryPoints.foldl (fun acc ep => if ep.name = name then some ep else acc) none

/-- Result of the JS read `entrypointsByFunctionName[functionCall.name]`
followed by the truthiness test: an own property (a registered entry
point), a truthy member inherited from `Object.prototype` (the record is
a plain object), or a falsy miss. -/
inductive DispatchHit (α : Type) where
  | own (ep : AnnotatedFunction α)
  | inherited (key : String)
  | miss
  deriving Repr

/-- Look the call's name up on the name-keyed record: the last registered
entry point of that name, else the inherited `Object.prototype` member,
else nothing. -/
def dispatchLookup {α : Type} (entryPoints : List (AnnotatedFunction α))
    (name : String) : DispatchHit α :=
  match lookupEntryPoint entryPoints name with
  | some ep => .own ep
  | none => if name ∈ objectPrototypeKeys then .inherited name else .miss

/-- The function-call payload handed to the handler: both fields optional
on the wire type. -/
structure FunctionCallPayload where
  name : Option String
  arguments : Option String
  deriving DecidableEq, Repr

/-- What a run of the dispatch handler does: invokes a registered
implementation with positional arguments, invokes nothing, or throws
(`JSON.parse` failure, or a property read on `null`). -/
inductive HandlerResult (α : Type) where
  | ok (invocation : Option (α × List JsValue))
  | parseError
  | typeError
  deriving Repr

/-- Marshal the positional argument list: one `jsIndex` lookup per
annotation, in annotation order; `none` when a lookup throws. -/
def marshalArgs (annotations : List ArgumentAnnotation) (parsed : JsValue) :
    Option (List JsValue) :=
  match annotations with
  | [] => some []
  | a :: rest =>
      match jsIndex parsed a.name with
      | some v =>
          match marshalArgs rest parsed with
          | some vs => some (v :: vs)
          | none => none
      | none => none

/-- `entryPointsToFunctionCallHandler`: read the call's name off the
name-keyed record and test truthiness. On a registered hit, parse the
arguments (an absent or empty string skips the parse, leaving the empty
array) and invoke the implementation with the marshalled positional
list. On a truthy inherited member (`toString`, `constructor`, ...), the
branch is still entered: the arguments are parsed when nonempty (a parse
failure throws there), and then iterating the member's nonexistent
`argumentAnnotations` throws a `TypeError`; nothing is invoked. -/
def entryPointsToFunctionCallHandler {α : Type}
    (entryPoints : List (AnnotatedFunction α)) (chatMessages : List Message)
    (functionCall : FunctionCallPayload) : HandlerResult α :=
  match dispatchLookup entryPoints (functionCall.name.getD "") with
  | .miss => .ok none
  | .inherited _ =>
      match functionCall.arguments with
      | none => .typeError
      | some s =>
          if s = "" then .typeError
          else
            match parseJson s with
            | none => .parseError
            | some _ => .typeError
  | .own entryPointFunction =>
      let parsed : Option JsValue :=
        match functionCall.arguments with
        | none => some (.arr [])
        | some s => if s = "" then some (.arr []) else parseJson s
      match parsed with
      | none => .parseError
      | some functionCallArguments =>
          match marshalArgs entryPointFunction.argumentAnnotations functionCallArguments with
          | none => .typeError
          | some paramsInCorrectOrder =>
              .ok (some (entryPointFunction.implementation, paramsInCorrectOrder))

/-! ### Schema compilation (provider module) -/

/-- `ChatCompletionCreateParams.Function`: the compiled declarative schema
for one entry point. -/
structure FunctionSchema where
  name : String
  description : String
  parameters : JsValue
  deriving Repr

/-- JS assignment `o[k] = v` on a plain object: the key `__proto__` hits
the inherited `Object.prototype` accessor's setter and defines no own
property; every other key updates in place or appends (`setProp`). Used
where the code performs plain assignments on a plain object; `JSON.parse`
member accumulation keeps `setProp`, since the parser defines own
properties even for a `__proto__` key. -/
def assignProp (fields : List (String × JsValue)) (k : String) (v : JsValue) :
    List (String × JsValue) :=
  if k = "__proto__" then fields else setProp fields k v

/-- `annotatedFunctionToChatCompletionFunction`: `parameters` collects each
annotation's metadata (the annotation minus `name` and `required`) under
the annotation's name, by plain JS assignment; `required` collects the
names of the annotations with `required = true`, in annotation order. -/
def annotatedFunctionToChatCompletionFunction {α : Type}
    (annotatedFunction : AnnotatedFunction α) : FunctionSchema :=
  let parameters := annotatedFunction.argumentAnnotations.foldl
    (fun ps a => assignProp ps a.name (.obj a.metadata)) []
  let requiredParameterNames :=
    (annotatedFunction.argumentAnnotations.filter (fun a => a.required)).map
      (fun a => a.name)
  { name := annotatedFunction.name
    description := annotatedFunction.description
    parameters := .obj
      [("type", .str "object"),
       ("properties", .obj parameters),
       ("required", .arr (requiredParameterNames.map .str))] }

/-- `entryPointsToChatCompletionFunctions`: compile every entry point. -/
def entryPointsToChatCompletionFunctions {α : Type}
    (entryPoints : List (AnnotatedFunction α)) : List FunctionSchema :=
  entryPoints.map annotatedFunctionToChatCompletionFunction

/-! ### Streaming completion orchestrator (use-chat.ts) -/

/-- One observable event during a completion cycle: the client's `content`,
`end`, `error` and `function` emissions, plus the cycle's abort signal
firing (what `stop()` triggers while the cycle's controller is current). -/
inductive CycleEvent where
  | content (s : String)
  | endEvt
  | errorEvt (cause : JsValue)
  | functionEvt (name : String) (args : JsValue)
  | abortSignal
  deriving Repr

/-- How the `runChatCompletion` promise settled. -/
inductive CycleOutcome where
  | resolved (m : Message)
  | rejectedAborted
  | rejectedError (cause : JsValue)
  deriving Repr

/-- The mutable state of one `runChatCompletion` cycle: the closed-over
`assistantMessage`, the hook's `messages` state as last published by
`setMessages`, the `isLoading` flag, and the settled outcome (`none` while
the promise is pending; once set, `cleanup()` has detached every listener
and cleared the abort-controller ref, so later events are inert). -/
structure CycleState where
  assistantMessage : Message
  messagesState : List Message
  isLoading : Bool
  outcome : Option CycleOutcome
  deriving Repr

/-- Cycle start: `setIsLoading(true)`, fresh empty assistant message,
publish `[...messages, { ...assistantMessage }]`. -/
def cycleInit (base : List Message) (fresh : Message) : CycleState :=
  { assistantMessage := fresh
    messagesState := base ++ [fresh]
    isLoading := true
    outcome := none }

/-- The fresh assistant message `runChatCompletion` creates: a nanoid and
timestamp from the environment, role `assistant`, empty content. -/
def newAssistantMessage (id : String) (createdAt : Nat) : Message :=
  { id := id, createdAt := createdAt, role := .assistant, content := "" }

/-- One event against the cycle state, as the registered handlers process
it. `base` is the closed-over `messages` argument. After a terminal event
(`end`, `error`, `function`, abort) the state is frozen: `cleanup()` has
run, so every later event is a no-op. -/
def cycleStep (base : List Message) (st : CycleState) (e : CycleEvent) : CycleState :=
  match st.outcome with
  | some _ => st
  | none =>
      match e with
      | .content s =>
          let am := { st.assistantMessage with
                        content := st.assistantMessage.content ++ s }
          { st with assistantMessage := am, messagesState := base ++ [am] }
      | .endEvt =>
          { st with isLoading := false
                    outcome := some (.resolved st.assistantMessage) }
      | .errorEvt cause =>
          { st with isLoading := false, outcome := some (.rejectedError cause) }
      | .functionEvt name args =>
          let am := { st.assistantMessage with
                        function_call := some ⟨name, stringifyJson args⟩ }
          { st with assistantMessage := am
                    messagesState := base ++ [am]
                    isLoading := false
                    outcome := some (.resolved am) }
      | .abortSignal =>
          { st with isLoading := false, outcome := some .rejectedAborted }

/-- `runChatCompletion(messages)` observed over a finite event history:
fold the events the environment delivers into the cycle state. -/
def runChatCompletion (base : List Message) (fresh : Message)
    (events : List CycleEvent) : CycleState :=
  events.foldl (cycleStep base) (cycleInit base fresh)

/-- The hook state the orchestrator owns: the `messages` list and the
`isLoading` in-flight flag. -/
structure ChatState where
  messages : List Message
  isLoading : Bool
  deriving Repr

/-- Start a cycle over `history` and report the resulting hook state
together with the cycle that ran. -/
def startCycle (history : List Message) (fresh : Message)
    (events : List CycleEvent) : ChatState × Option CycleState :=
  let c := runChatCompletion history fresh events
  ({ messages := c.messagesState, isLoading := c.isLoading }, some c)

/-- `append(message)`: dropped while `isLoading`; otherwise push the message
and run a completion cycle over the extended history. The second component
is `none` exactly when no cycle was started. -/
def append (st : ChatState) (message : Message) (fresh : Message)
    (events : List CycleEvent) : ChatState × Option CycleState :=
  if st.isLoading then (st, none)
  else startCycle (st.messages ++ [message]) fresh events

/-- `reload()`: dropped while `isLoading` or on an empty history; drops a
trailing assistant message, then runs a completion cycle over the
remaining history. -/
def reload (st : ChatState) (fresh : Message) (events : List CycleEvent) :
    ChatState × Option CycleState :=
  if st.isLoading ∨ st.messages = [] then (st, none)
  else
    let newMessages :=
      match st.messages.getLast? with
      | some lastMessage =>
          if lastMessage.role = .assistant then st.messages.dropLast
          else st.messages
      | none => st.messages
    startCycle newMessages fresh events

/-! ### Observation helpers used by the specification statements -/

/-- Concatenation of a list of strings in order (arrival-order fold of the
content frames). -/
def concatAll : List String → String
  | [] => ""
  | s :: rest => s ++ concatAll rest

/-- The entry registered under an id (first match; registry keys are
unique). -/
def regLookup {α : Type} (reg : EntryPointRegistry α) (id : String) :
    Option (AnnotatedFunction α) :=
  match reg with
  | [] => none
  | p :: rest => if p.1 = id then some p.2 else regLookup rest id

/-! ### Concrete fixtures for the scenario statements -/

/-- The spec's example entry point `getWeather(city, units)` with `city`
required and `units` optional; the implementation is the opaque tag `0`. -/
def getWeatherEp : AnnotatedFunction Nat :=
  { name := "getWeather"
    description := "Get the weather"
    argumentAnnotations :=
      [{ name := "city", required := true, metadata := [("type", JsValue.str "string")] },
       { name := "units", required := false, metadata := [("type", JsValue.str "string")] }]
    implementation := 0 }

/-- Fixture entry points for the registry scenarios. -/
def epW1 : AnnotatedFunction Nat :=
  { name := "alpha", description := "first", argumentAnnotations := [], implementation := 1 }

/-- Second fixture entry point. -/
def epW2 : AnnotatedFunction Nat :=
  { name := "beta", description := "second", argumentAnnotations := [], implementation := 2 }

/-- Replacement fixture entry point, registered over `epW1`'s id. -/
def epW3 : AnnotatedFunction Nat :=
  { name := "gamma", description := "third", argumentAnnotations := [], implementation := 3 }

/-- Fixture registry holding `epW1` and `epW2`. -/
def regW : EntryPointRegistry Nat := [("id1", epW1), ("id2", epW2)]

/-! ### Lemmas about the cycle state machine -/

/-- After the cycle has settled (`cleanup()` ran), every event is inert. -/
theorem cycleStep_done (base : List Message) (st : CycleState) (e : CycleEvent)
    (o : CycleOutcome) (h : st.outcome = some o) : cycleStep base st e = st := by
  unfold cycleStep
  rw [h]

/-- A settled cycle stays frozen under any further event sequence. -/
theorem foldl_cycleStep_done (base : List Message) (st : CycleState)
    (events : List CycleEvent) (o : CycleOutcome) (h : st.outcome = some o) :
    events.foldl (cycleStep base) st = st := by
  induction events with
  | nil => rfl
  | cons e rest ih => rw [List.foldl_cons, cycleStep_done base st e o h, ih]

/-- Folding content frames from a live published state and then `End`:
content accumulates in arrival order and the cycle resolves. -/
theorem foldl_content_end (base : List Message) (m : Message) (frames : List String) :
    List.foldl (cycleStep base)
      { assistantMessage := m, messagesState := base ++ [m], isLoading := true,
        outcome := none }
      (frames.map CycleEvent.content ++ [CycleEvent.endEvt]) =
    { assistantMessage := { m with content := m.content ++ concatAll frames }
      messagesState := base ++ [{ m with content := m.content ++ concatAll frames }]
      isLoading := false
      outcome := some (.resolved { m with content := m.content ++ concatAll frames }) } := by
  induction frames generalizing m with
  | nil => simp [cycleStep, concatAll]
  | cons f fs ih =>
      rw [List.map_cons, List.cons_append, List.foldl_cons]
      have hstep : cycleStep base
          { assistantMessage := m, messagesState := base ++ [m], isLoading := true,
            outcome := none } (.content f) =
          { assistantMessage := { m with content := m.content ++ f }
            messagesState := base ++ [{ m with content := m.content ++ f }]
            isLoading := true
            outcome := none } := rfl
      rw [hstep, ih]
      simp [concatAll, String.append_assoc]

/-! ### Lemmas about dispatch marshalling -/

/-- Marshalling against a parsed object never throws: each positional slot
is the property read under the annotation's name (own field, inherited
member, or `undefined`). -/
theorem marshalArgs_obj (annotations : List ArgumentAnnotation)
    (fields : List (String × JsValue)) :
    marshalArgs annotations (.obj fields) =
      some (annotations.map (fun a => objProp fields a.name)) := by
  induction annotations with
  | nil => rfl
  | cons a rest ih => simp [marshalArgs, jsIndex, ih]

/-- A key held by no field is not an own property. -/
theorem findField_absent (fields : List (String × JsValue)) (k : String)
    (h : ∀ p ∈ fields, p.1 ≠ k) : findField fields k = none := by
  induction fields with
  | nil => rfl
  | cons p rest ih =>
      have hp : p.1 ≠ k := h p (List.mem_cons_self p rest)
      simp only [findField, if_neg hp]
      exact ih (fun q hq => h q (List.mem_cons_of_mem p hq))

/-- A key held by no field and inherited from no prototype member reads as
`undefined`. -/
theorem objProp_absent (fields : List (String × JsValue)) (k : String)
    (h1 : ∀ p ∈ fields, p.1 ≠ k) (h2 : k ∉ objectPrototypeKeys) :
    objProp fields k = .undefined := by
  unfold objProp
  rw [findField_absent fields k h1]
  unfold inheritedProp
  rw [if_neg h2]

/-- Reading a key off the empty array yields `undefined` when the key is
neither `length` nor an inherited prototype member. -/
theorem jsIndex_emptyArr (k : String) (h1 : k ≠ "length")
    (h2 : k ∉ arrayPrototypeKeys) (h3 : k ∉ objectPrototypeKeys) :
    jsIndex (.arr []) k = some .undefined := by
  have hnotin : k ∉ arrayPrototypeKeys ++ objectPrototypeKeys := by
    intro hc
    exact (List.mem_append.mp hc).elim h2 h3
  have hin : inheritedProp (arrayPrototypeKeys ++ objectPrototypeKeys) k =
      .undefined := by
    unfold inheritedProp
    rw [if_neg hnotin]
  simp only [jsIndex, if_neg h1]
  cases hk : keyIndex? k with
  | none => simp [hin]
  | some i => cases i <;> simp

/-- Marshalling against the empty array yields `undefined` in every slot,
provided no annotation name collides with the array's own `length` or an
inherited prototype member. -/
theorem marshalArgs_emptyArr (annotations : List ArgumentAnnotation)
    (h : ∀ a ∈ annotations, a.name ≠ "length" ∧ a.name ∉ arrayPrototypeKeys
      ∧ a.name ∉ objectPrototypeKeys) :
    marshalArgs annotations (.arr []) =
      some (annotations.map (fun _ => JsValue.undefined)) := by
  induction annotations with
  | nil => rfl
  | cons a rest ih =>
      obtain ⟨ha1, ha2, ha3⟩ := h a (List.mem_cons_self a rest)
      simp only [marshalArgs, jsIndex_emptyArr a.name ha1 ha2 ha3,
        ih (fun b hb => h b (List.mem_cons_of_mem a hb)), List.map_cons]

/-! ### Lemmas about the registry -/

/-- After `setEntryPoint`, the id reads back as the new entry. -/
theorem regLookup_setEntryPoint_self {α : Type} (reg : EntryPointRegistry α)
    (id : String) (ep : AnnotatedFunction α) :
    regLookup (setEntryPoint reg id ep) id = some ep := by
  unfold setEntryPoint
  by_cases hAny : reg.any (fun p => p.1 = id)
  · rw [if_pos hAny]
    induction reg with
    | nil => simp at hAny
    | cons q rest ih =>
        by_cases hq : q.1 = id
        · simp [regLookup, hq]
        · have hrest : rest.any (fun p => p.1 = id) := by
            simp only [List.any_cons, Bool.or_eq_true, decide_eq_true_eq] at hAny
            exact (hAny.resolve_left hq)
          simp only [List.map_cons, if_neg hq, regLookup, ih hrest]
  · rw [if_neg hAny]
    induction reg with
    | nil => simp [regLookup]
    | cons q rest ih =>
        simp only [List.any_cons, Bool.or_eq_true, decide_eq_true_eq, not_or] at hAny
        simp only [List.cons_append, regLookup, if_neg hAny.1]
        exact ih (by simpa using hAny.2)

/-- Rewriting the entry under one id does not disturb lookups at other
ids. -/
theorem regLookup_map_other {α : Type} (reg : EntryPointRegistry α)
    (id : String) (ep : AnnotatedFunction α) (id' : String) (h : id' ≠ id) :
    regLookup (reg.map (fun p => if p.1 = id then (id, ep) else p)) id' =
      regLookup reg id' := by
  induction reg with
  | nil => rfl
  | cons q rest ih =>
      by_cases hq : q.1 = id
      · have hq' : id ≠ id' := fun hc => h hc.symm
        have hqid' : q.1 ≠ id' := hq ▸ hq'
        simp only [List.map_cons, if_pos hq, regLookup, if_neg hq', if_neg hqid', ih]
      · simp only [List.map_cons, if_neg hq, regLookup, ih]

/-- Appending a fresh id's entry does not disturb lookups at other ids. -/
theorem regLookup_append_other {α : Type} (reg : EntryPointRegistry α)
    (id : String) (ep : AnnotatedFunction α) (id' : String) (h : id' ≠ id) :
    regLookup (reg ++ [(id, ep)]) id' = regLookup reg id' := by
  induction reg with
  | nil =>
      have : id ≠ id' := fun hc => h hc.symm
      simp [regLookup, this]
  | cons q rest ih =>
      by_cases hq : q.1 = id'
      · simp [regLookup, hq]
      · simp only [List.cons_append, regLookup, if_neg hq]
        exact ih

/-- `setEntryPoint` leaves every other id's entry unchanged. -/
theorem regLookup_setEntryPoint_other {α : Type} (reg : EntryPointRegistry α)
    (id : String) (ep : AnnotatedFunction α) (id' : String) (h : id' ≠ id) :
    regLookup (setEntryPoint reg id ep) id' = regLookup reg id' := by
  unfold setEntryPoint
  by_cases hAny : reg.any (fun p => p.1 = id)
  · rw [if_pos hAny, regLookup_map_other reg id ep id' h]
  · rw [if_neg hAny, regLookup_append_other reg id ep id' h]

/-- Every entry stored under the re-registered id is the new function. -/
theorem setEntryPoint_only_new {α : Type} (reg : EntryPointRegistry α)
    (id : String) (ep : AnnotatedFunction α)
    (p : String × AnnotatedFunction α) (hp : p ∈ setEntryPoint reg id ep)
    (hid : p.1 = id) : p.2 = ep := by
  unfold setEntryPoint at hp
  by_cases hAny : reg.any (fun p => p.1 = id)
  · rw [if_pos hAny] at hp
    rcases List.mem_map.mp hp with ⟨q, _, hq⟩
    by_cases hqid : q.1 = id
    · rw [if_pos hqid] at hq
      rw [← hq]
    · rw [if_neg hqid] at hq
      exact absurd (hq ▸ hid) hqid
  · rw [if_neg hAny] at hp
    rcases List.mem_append.mp hp with hin | hin
    · exfalso
      apply hAny
      exact List.any_eq_true.mpr ⟨p, hin, by simp [hid]⟩
    · rw [List.mem_singleton.mp hin]

/-- Entries under other ids are exactly the previous ones. -/
theorem setEntryPoint_other_mem {α : Type} (reg : EntryPointRegistry α)
    (id : String) (ep : AnnotatedFunction α)
    (p : String × AnnotatedFunction α) (hp : p ∈ setEntryPoint reg id ep)
    (hid : p.1 ≠ id) : p ∈ reg := by
  unfold setEntryPoint at hp
  by_cases hAny : reg.any (fun p => p.1 = id)
  · rw [if_pos hAny] at hp
    rcases List.mem_map.mp hp with ⟨q, hqmem, hq⟩
    by_cases hqid : q.1 = id
    · rw [if_pos hqid] at hq
      exact absurd (hq ▸ rfl : p.1 = id) hid
    · rw [if_neg hqid] at hq
      exact hq ▸ hqmem
  · rw [if_neg hAny] at hp
    rcases List.mem_append.mp hp with hin | hin
    · exact hin
    · exact absurd (List.mem_singleton.mp hin ▸ rfl : p.1 = id) hid

/-- Deleting an id that is not present leaves the record unchanged. -/
theorem removeEntryPoint_absent {α : Type} (reg : EntryPointRegistry α)
    (id : String) (h : ∀ p ∈ reg, p.1 ≠ id) : removeEntryPoint reg id = reg := by
  unfold removeEntryPoint
  induction reg with
  | nil => rfl
  | cons q rest ih =>
      have hq : q.1 ≠ id := h q (List.mem_cons_self q rest)
      simp only [List.filter_cons, decide_eq_true_eq]
      rw [if_pos hq, ih (fun p hp => h p (List.mem_cons_of_mem q hp))]

/-! ### Lemmas about schema compilation -/

/-- Collecting metadata under pairwise-distinct annotation names, none of
them `__proto__`, just appends one own property per annotation, in
annotation order. -/
theorem foldl_assignProp_fresh (annotations : List ArgumentAnnotation)
    (ps : List (String × JsValue))
    (hproto : ∀ a ∈ annotations, a.name ≠ "__proto__")
    (hdisj : ∀ a ∈ annotations, ∀ p ∈ ps, p.1 ≠ a.name)
    (hnodup : (annotations.map (fun a => a.name)).Nodup) :
    annotations.foldl (fun ps a => assignProp ps a.name (.obj a.metadata)) ps =
      ps ++ annotations.map (fun a => (a.name, JsValue.obj a.metadata)) := by
  induction annotations generalizing ps with
  | nil => simp
  | cons a rest ih =>
      have hfresh : ¬(ps.any (fun p => p.1 = a.name) = true) := by
        simp only [List.any_eq_true, decide_eq_true_eq, not_exists, not_and]
        intro p hp
        exact hdisj a (List.mem_cons_self a rest) p hp
      have hstep : assignProp ps a.name (.obj a.metadata) =
          ps ++ [(a.name, JsValue.obj a.metadata)] := by
        unfold assignProp
        rw [if_neg (hproto a (List.mem_cons_self a rest))]
        unfold setProp
        rw [if_neg hfresh]
      rw [List.foldl_cons, hstep,
        ih (ps ++ [(a.name, JsValue.obj a.metadata)])
          (fun b hb => hproto b (List.mem_cons_of_mem a hb)) ?_ ?_]
      · simp
      · intro b hb p hp
        rcases List.mem_append.mp hp with hin | hin
        · exact hdisj b (List.mem_cons_of_mem a hb) p hin
        · rw [List.mem_singleton.mp hin]
          simp only [List.map_cons, List.nodup_cons] at hnodup
          intro hc
          apply hnodup.1
          rw [show a.name = b.name from hc]
          exact List.mem_map_of_mem (fun x => x.name) hb
      · simp only [List.map_cons, List.nodup_cons] at hnodup
        exact hnodup.2

/-- A live cycle reacts to a `function` event by recording the serialized
call on the assistant message, republishing, and resolving. -/
theorem cycleStep_live_function (base : List Message) (st : CycleState)
    (name : String) (args : JsValue) (h : st.outcome = none) :
    cycleStep base st (.functionEvt name args) =
      { assistantMessage := { st.assistantMessage with
            function_call := some ⟨name, stringifyJson args⟩ }
        messagesState := base ++ [{ st.assistantMessage with
            function_call := some ⟨name, stringifyJson args⟩ }]
        isLoading := false
        outcome := some (.resolved { st.assistantMessage with
            function_call := some ⟨name, stringifyJson args⟩ }) } := by
  unfold cycleStep
  rw [h]

/-- A live cycle reacts to the abort signal by clearing the in-flight flag
and rejecting as `Aborted`, publishing nothing new. -/
theorem cycleStep_live_abort (base : List Message) (st : CycleState)
    (h : st.outcome = none) :
    cycleStep base st .abortSignal =
      { st with isLoading := false, outcome := some .rejectedAborted } := by
  unfold cycleStep
  rw [h]

/-! ### Claim theorems: orchestrator -/

/-- C1: for every finite sequence of content-delta frames delivered during
one completion cycle that terminates with `End`, the final assistant
message's content equals the concatenation of the frame payloads in
arrival order and the cycle resolves with the in-flight flag cleared; in
particular, after `append` of user "hi" followed by frames "He", "llo",
`End`, the message list is `[user "hi", assistant "Hello"]` and the
in-flight flag is false. -/
theorem content_frames_concatenate :
    (∀ (base : List Message) (id : String) (createdAt : Nat) (frames : List String),
      runChatCompletion base (newAssistantMessage id createdAt)
          (frames.map CycleEvent.content ++ [CycleEvent.endEvt]) =
        { assistantMessage :=
            { newAssistantMessage id createdAt with content := concatAll frames }
          messagesState :=
            base ++ [{ newAssistantMessage id createdAt with content := concatAll frames }]
          isLoading := false
          outcome := some (.resolved
            { newAssistantMessage id createdAt with content := concatAll frames }) })
    ∧ (append { messages := [], isLoading := false }
          { id := "u1", createdAt := 0, role := .user, content := "hi" }
          (newAssistantMessage "a1" 1)
          [.content "He", .content "llo", .endEvt]).1 =
        { messages := [{ id := "u1", createdAt := 0, role := .user, content := "hi" },
                       { id := "a1", createdAt := 1, role := .assistant, content := "Hello" }]
          isLoading := false } := by
  constructor
  · intro base id createdAt frames
    unfold runChatCompletion cycleInit
    rw [foldl_content_end]
    simp [newAssistantMessage]
  · rfl

/-- C4: while a completion cycle is in flight, `append` is silently
dropped: the hook state is unchanged and no cycle is started. -/
theorem append_while_streaming_is_noop (st : ChatState) (message fresh : Message)
    (events : List CycleEvent) (h : st.isLoading = true) :
    append st message fresh events = (st, none) := by
  simp [append, h]

/-- Witness for C4. -/
theorem append_while_streaming_is_noop_witness :
    append { messages := [], isLoading := true }
        { id := "m", createdAt := 0, role := .user, content := "x" }
        (newAssistantMessage "a" 1) [CycleEvent.endEvt] =
      ({ messages := [], isLoading := true }, none) :=
  append_while_streaming_is_noop _ _ _ _ rfl

/-- C5: a `FunctionCall` event sets the active assistant message's
`function_call` field to the received name and serialized arguments,
republishes the message list, and settles the cycle immediately (promise
resolved, in-flight flag cleared) without waiting for `End`; no later
event of that cycle changes anything. -/
theorem function_call_ends_cycle_early (base : List Message) (fresh : Message)
    (pre post : List CycleEvent) (name : String) (args : JsValue)
    (h : (runChatCompletion base fresh pre).outcome = none) :
    runChatCompletion base fresh (pre ++ CycleEvent.functionEvt name args :: post) =
      { assistantMessage := { (runChatCompletion base fresh pre).assistantMessage with
            function_call := some ⟨name, stringifyJson args⟩ }
        messagesState := base ++
          [{ (runChatCompletion base fresh pre).assistantMessage with
              function_call := some ⟨name, stringifyJson args⟩ }]
        isLoading := false
        outcome := some (.resolved
          { (runChatCompletion base fresh pre).assistantMessage with
              function_call := some ⟨name, stringifyJson args⟩ }) } := by
  unfold runChatCompletion at h ⊢
  rw [List.foldl_append, List.foldl_cons, cycleStep_live_function base _ name args h]
  exact foldl_cycleStep_done _ _ _ _ rfl

/-- Witness for C5. -/
theorem function_call_ends_cycle_early_witness :
    runChatCompletion [] (newAssistantMessage "a" 0)
        ([CycleEvent.content "Hi"] ++
          CycleEvent.functionEvt "getWeather" (.obj [("city", .str "Paris")]) ::
            [CycleEvent.content "ZZ", CycleEvent.endEvt]) =
      { assistantMessage :=
          { (runChatCompletion [] (newAssistantMessage "a" 0)
              [CycleEvent.content "Hi"]).assistantMessage with
              function_call := some ⟨"getWeather",
                stringifyJson (.obj [("city", .str "Paris")])⟩ }
        messagesState :=
          [] ++ [{ (runChatCompletion [] (newAssistantMessage "a" 0)
              [CycleEvent.content "Hi"]).assistantMessage with
              function_call := some ⟨"getWeather",
                stringifyJson (.obj [("city", .str "Paris")])⟩ }]
        isLoading := false
        outcome := some (.resolved
          { (runChatCompletion [] (newAssistantMessage "a" 0)
              [CycleEvent.content "Hi"]).assistantMessage with
              function_call := some ⟨"getWeather",
                stringifyJson (.obj [("city", .str "Paris")])⟩ }) } :=
  function_call_ends_cycle_early [] (newAssistantMessage "a" 0)
    [CycleEvent.content "Hi"] [CycleEvent.content "ZZ", CycleEvent.endEvt]
    "getWeather" (.obj [("city", .str "Paris")]) rfl

/-- C6: a stop signal during an in-flight cycle settles that cycle as the
distinguished `Aborted` rejection (distinct from any transport-error
rejection) and freezes it: no queued `Content` or `FunctionCall` event
delivered afterwards mutates the message list or the state. -/
theorem stop_aborts_in_flight_cycle (base : List Message) (fresh : Message)
    (pre post : List CycleEvent)
    (h : (runChatCompletion base fresh pre).outcome = none) :
    runChatCompletion base fresh (pre ++ CycleEvent.abortSignal :: post) =
      { runChatCompletion base fresh pre with
          isLoading := false, outcome := some .rejectedAborted }
    ∧ ∀ cause, CycleOutcome.rejectedAborted ≠ CycleOutcome.rejectedError cause := by
  constructor
  · unfold runChatCompletion at h ⊢
    rw [List.foldl_append, List.foldl_cons, cycleStep_live_abort base _ h]
    exact foldl_cycleStep_done _ _ _ _ rfl
  · intro cause hc
    exact CycleOutcome.noConfusion hc

/-- Witness for C6. -/
theorem stop_aborts_in_flight_cycle_witness :
    runChatCompletion [] (newAssistantMessage "a" 0)
        ([CycleEvent.content "He"] ++
          CycleEvent.abortSignal :: [CycleEvent.content "llo", CycleEvent.endEvt]) =
      { runChatCompletion [] (newAssistantMessage "a" 0) [CycleEvent.content "He"] with
          isLoading := false, outcome := some .rejectedAborted }
    ∧ ∀ cause, CycleOutcome.rejectedAborted ≠ CycleOutcome.rejectedError cause :=
  stop_aborts_in_flight_cycle [] (newAssistantMessage "a" 0)
    [CycleEvent.content "He"] [CycleEvent.content "llo", CycleEvent.endEvt] rfl

/-- C7: `reload` is a no-op while a cycle is in flight or on an empty
history; on a history ending in an assistant message it removes exactly
that message and starts a cycle over the rest; on a history ending in any
other role it starts a cycle over the history unchanged. -/
theorem reload_drops_trailing_assistant :
    (∀ (st : ChatState) (fresh : Message) (events : List CycleEvent),
        st.isLoading = true → reload st fresh events = (st, none))
    ∧ (∀ (st : ChatState) (fresh : Message) (events : List CycleEvent),
        st.messages = [] → reload st fresh events = (st, none))
    ∧ (∀ (ms : List Message) (m : Message) (fresh : Message) (events : List CycleEvent),
        m.role = .assistant →
        reload { messages := ms ++ [m], isLoading := false } fresh events =
          startCycle ms fresh events)
    ∧ (∀ (ms : List Message) (m : Message) (fresh : Message) (events : List CycleEvent),
        m.role ≠ .assistant →
        reload { messages := ms ++ [m], isLoading := false } fresh events =
          startCycle (ms ++ [m]) fresh events) := by
  refine ⟨?_, ?_, ?_, ?_⟩
  · intro st fresh events h
    simp [reload, h]
  · intro st fresh events h
    simp [reload, h]
  · intro ms m fresh events h
    simp [reload, List.getLast?_concat, h]
  · intro ms m fresh events h
    simp [reload, List.getLast?_concat, h]

/-- Witness for C7. -/
theorem reload_drops_trailing_assistant_witness :
    reload { messages := [], isLoading := true } (newAssistantMessage "a" 0)
        [CycleEvent.endEvt] = ({ messages := [], isLoading := true }, none)
    ∧ reload { messages := [], isLoading := false } (newAssistantMessage "a" 0)
        [CycleEvent.endEvt] = ({ messages := [], isLoading := false }, none)
    ∧ reload { messages := [{ id := "u", createdAt := 0, role := .user, content := "hi" },
                            { id := "a", createdAt := 1, role := .assistant, content := "old" }],
               isLoading := false } (newAssistantMessage "a2" 2) [CycleEvent.endEvt] =
        startCycle [{ id := "u", createdAt := 0, role := .user, content := "hi" }]
          (newAssistantMessage "a2" 2) [CycleEvent.endEvt]
    ∧ reload { messages := [{ id := "u", createdAt := 0, role := .user, content := "hi" }],
               isLoading := false } (newAssistantMessage "a2" 2) [CycleEvent.endEvt] =
        startCycle [{ id := "u", createdAt := 0, role := .user, content := "hi" }]
          (newAssistantMessage "a2" 2) [CycleEvent.endEvt] :=
  ⟨reload_drops_trailing_assistant.1 _ _ _ rfl,
   reload_drops_trailing_assistant.2.1 _ _ _ rfl,
   reload_drops_trailing_assistant.2.2.1
     [{ id := "u", createdAt := 0, role := .user, content := "hi" }]
     { id := "a", createdAt := 1, role := .assistant, content := "old" } _ _ rfl,
   reload_drops_trailing_assistant.2.2.2 []
     { id := "u", createdAt := 0, role := .user, content := "hi" } _ _
     (by intro hc; exact Role.noConfusion hc)⟩

/-! ### Claim theorems: dispatch registry and schema compilation -/

/-- C2 counterexample: an annotation named `toString` absent from the
parsed mapping marshals the inherited `Object.prototype.toString`
function into its positional slot, not `undefined` as the claim
asserts. -/
theorem absent_inherited_name_marshals_member :
    entryPointsToFunctionCallHandler
        [{ name := "f", description := "d",
           argumentAnnotations := [{ name := "toString", required := false }],
           implementation := (0 : Nat) }] []
        { name := some "f", arguments := some "\x7b\"x\":1\x7d" } =
      .ok (some (0, [JsValue.native "toString"]))
    ∧ entryPointsToFunctionCallHandler
        [{ name := "f", description := "d",
           argumentAnnotations := [{ name := "toString", required := false }],
           implementation := (0 : Nat) }] []
        { name := some "f", arguments := some "\x7b\"x\":1\x7d" } ≠
      .ok (some (0, [JsValue.undefined])) := by
  refine ⟨rfl, ?_⟩
  intro hc
  rw [show entryPointsToFunctionCallHandler
        [{ name := "f", description := "d",
           argumentAnnotations := [{ name := "toString", required := false }],
           implementation := (0 : Nat) }] []
        { name := some "f", arguments := some "\x7b\"x\":1\x7d" } =
      .ok (some (0, [JsValue.native "toString"])) from rfl] at hc
  simp at hc

/-- C2 (amended): for every registered entry point (no entry point named
`__proto__`, whose registration would hit the inherited setter) and every
successfully parsed name-to-value mapping, the handler invokes the
implementation with a positional list built by iterating the
`argumentAnnotations` in registration order and reading each name off the
mapping; a name absent from the mapping yields `undefined` unless it
collides with an inherited `Object.prototype` member, which is marshalled
instead (still not an error); in particular `getWeather` with arguments
`\x7b"units":"celsius","city":"Paris"\x7d` is invoked with
("Paris", "celsius"). -/
theorem resolve_and_invoke_marshals_positionally :
    (∀ (α : Type) (entryPoints : List (AnnotatedFunction α)) (msgs : List Message)
        (functionCall : FunctionCallPayload) (ep : AnnotatedFunction α)
        (s : String) (fields : List (String × JsValue)),
        (∀ e ∈ entryPoints, e.name ≠ "__proto__") →
        lookupEntryPoint entryPoints (functionCall.name.getD "") = some ep →
        functionCall.arguments = some s → s ≠ "" →
        parseJson s = some (.obj fields) →
        entryPointsToFunctionCallHandler entryPoints msgs functionCall =
          .ok (some (ep.implementation,
            ep.argumentAnnotations.map (fun a => objProp fields a.name))))
    ∧ (∀ (fields : List (String × JsValue)) (k : String),
        (∀ p ∈ fields, p.1 ≠ k) → k ∉ objectPrototypeKeys →
        objProp fields k = .undefined)
    ∧ entryPointsToFunctionCallHandler [getWeatherEp] []
        { name := some "getWeather",
          arguments := some "\x7b\"units\":\"celsius\",\"city\":\"Paris\"\x7d" } =
      .ok (some (0, [.str "Paris", .str "celsius"])) := by
  refine ⟨?_, objProp_absent, ?_⟩
  · intro α entryPoints msgs functionCall ep s fields hnp hlook hargs hne hparse
    have hdl : dispatchLookup entryPoints (functionCall.name.getD "") = .own ep := by
      unfold dispatchLookup
      rw [hlook]
    unfold entryPointsToFunctionCallHandler
    rw [hdl, hargs]
    simp only [if_neg hne]
    rw [hparse]
    simp [marshalArgs_obj]
  · rfl

/-- Witness for C2. -/
theorem resolve_and_invoke_marshals_positionally_witness :
    entryPointsToFunctionCallHandler [getWeatherEp] []
        { name := some "getWeather",
          arguments := some "\x7b\"units\":\"celsius\",\"city\":\"Paris\"\x7d" } =
      .ok (some (0, [.str "Paris", .str "celsius"]))
    ∧ objProp [("units", JsValue.str "celsius"), ("city", JsValue.str "Paris")]
        "humidity" = .undefined :=
  ⟨resolve_and_invoke_marshals_positionally.1 Nat [getWeatherEp] []
      { name := some "getWeather",
        arguments := some "\x7b\"units\":\"celsius\",\"city\":\"Paris\"\x7d" }
      getWeatherEp "\x7b\"units\":\"celsius\",\"city\":\"Paris\"\x7d"
      [("units", JsValue.str "celsius"), ("city", JsValue.str "Paris")]
      (by decide) rfl rfl (by decide) rfl,
   resolve_and_invoke_marshals_positionally.2.1
      [("units", JsValue.str "celsius"), ("city", JsValue.str "Paris")]
      "humidity" (by decide) (by decide)⟩

/-- C3 counterexample: an annotation named `__proto__` hits the inherited
`Object.prototype` setter, so the compiled `parameters` object carries no
property for it (its name still enters the required list); the claimed
property set — one property per annotation — is therefore not produced. -/
theorem proto_annotation_creates_no_property :
    annotatedFunctionToChatCompletionFunction
        { name := "f", description := "d",
          argumentAnnotations := [{ name := "__proto__", required := true }],
          implementation := (0 : Nat) } =
      { name := "f", description := "d",
        parameters := .obj
          [("type", .str "object"),
           ("properties", .obj []),
           ("required", .arr [.str "__proto__"])] }
    ∧ JsValue.obj [] ≠ JsValue.obj [("__proto__", JsValue.obj [])] := by
  refine ⟨rfl, ?_⟩
  intro hc
  simp at hc

/-- C3 (amended): the compiled schema of an `AnnotatedFunction` carries its
name and description, a parameters object whose property set is exactly
one property per annotation (the annotation's metadata under its name),
and a required list holding exactly the names of the annotations with
`required = true` in annotation order — provided no annotation is named
`__proto__` (whose assignment defines no property); in particular for
`[city required, units optional]` the required list is exactly `["city"]`
and both `city` and `units` are properties. -/
theorem compiled_schema_properties_and_required :
    (∀ (α : Type) (af : AnnotatedFunction α),
        (∀ a ∈ af.argumentAnnotations, a.name ≠ "__proto__") →
        (af.argumentAnnotations.map (fun a => a.name)).Nodup →
        annotatedFunctionToChatCompletionFunction af =
          { name := af.name
            description := af.description
            parameters := .obj
              [("type", .str "object"),
               ("properties", .obj (af.argumentAnnotations.map
                  (fun a => (a.name, JsValue.obj a.metadata)))),
               ("required", .arr
                  (((af.argumentAnnotations.filter (fun a => a.required)).map
                    (fun a => a.name)).map .str))] })
    ∧ annotatedFunctionToChatCompletionFunction getWeatherEp =
        { name := "getWeather"
          description := "Get the weather"
          parameters := .obj
            [("type", .str "object"),
             ("properties", .obj
                [("city", .obj [("type", .str "string")]),
                 ("units", .obj [("type", .str "string")])]),
             ("required", .arr [.str "city"])] } := by
  constructor
  · intro α af hproto hnodup
    unfold annotatedFunctionToChatCompletionFunction
    rw [foldl_assignProp_fresh af.argumentAnnotations [] hproto
      (by intro a _ p hp; cases hp) hnodup]
    simp
  · rfl

/-- Witness for C3. -/
theorem compiled_schema_properties_and_required_witness :
    annotatedFunctionToChatCompletionFunction getWeatherEp =
      { name := getWeatherEp.name
        description := getWeatherEp.description
        parameters := .obj
          [("type", .str "object"),
           ("properties", .obj (getWeatherEp.argumentAnnotations.map
              (fun a => (a.name, JsValue.obj a.metadata)))),
           ("required", .arr
              (((getWeatherEp.argumentAnnotations.filter (fun a => a.required)).map
                (fun a => a.name)).map .str))] } :=
  compiled_schema_properties_and_required.1 Nat getWeatherEp (by decide) (by decide)

/-- C8 counterexample: the unregistered name `toString` reads back as a
truthy member inherited from `Object.prototype`, so the handler enters
the dispatch branch: with parseable arguments it throws a `TypeError`
iterating the member's missing annotations, and with unparseable
arguments the parse throws first — not the claimed silent no-op, and the
arguments are parsed. -/
theorem inherited_name_is_not_noop :
    entryPointsToFunctionCallHandler [getWeatherEp] []
        { name := some "toString", arguments := some "\x7b\x7d" } = .typeError
    ∧ entryPointsToFunctionCallHandler [getWeatherEp] []
        { name := some "toString", arguments := some "not valid json" } = .parseError
    ∧ (HandlerResult.typeError ≠ (.ok none : HandlerResult Nat)) := by
  refine ⟨rfl, rfl, ?_⟩
  intro hc
  exact HandlerResult.noConfusion hc

/-- C8 (amended): a descriptor name that is neither a registered entry
point nor an inherited `Object.prototype` member resolves to a silent
no-op — no error, no invocation, the arguments never parsed; a name that
is an inherited member (`toString`, `constructor`, `__proto__`, ...)
instead enters the branch and throws without invoking any entry point. -/
theorem unregistered_name_is_noop :
    (∀ (α : Type) (entryPoints : List (AnnotatedFunction α)) (msgs : List Message)
        (functionCall : FunctionCallPayload),
        (∀ e ∈ entryPoints, e.name ≠ "__proto__") →
        lookupEntryPoint entryPoints (functionCall.name.getD "") = none →
        functionCall.name.getD "" ∉ objectPrototypeKeys →
        entryPointsToFunctionCallHandler entryPoints msgs functionCall = .ok none)
    ∧ (∀ (α : Type) (entryPoints : List (AnnotatedFunction α)) (msgs : List Message)
        (functionCall : FunctionCallPayload),
        (∀ e ∈ entryPoints, e.name ≠ "__proto__") →
        lookupEntryPoint entryPoints (functionCall.name.getD "") = none →
        functionCall.name.getD "" ∈ objectPrototypeKeys →
        entryPointsToFunctionCallHandler entryPoints msgs functionCall = .typeError
        ∨ entryPointsToFunctionCallHandler entryPoints msgs functionCall =
            .parseError) := by
  constructor
  · intro α entryPoints msgs functionCall hnp hlook hmem
    have hdl : dispatchLookup entryPoints (functionCall.name.getD "") = .miss := by
      unfold dispatchLookup
      rw [hlook, if_neg hmem]
    unfold entryPointsToFunctionCallHandler
    rw [hdl]
  · intro α entryPoints msgs functionCall hnp hlook hmem
    have hdl : dispatchLookup entryPoints (functionCall.name.getD "") =
        .inherited (functionCall.name.getD "") := by
      unfold dispatchLookup
      rw [hlook, if_pos hmem]
    unfold entryPointsToFunctionCallHandler
    rw [hdl]
    cases harg : functionCall.arguments with
    | none =>
        left
        rfl
    | some s =>
        by_cases hs : s = ""
        · left
          simp [hs]
        · cases hp : parseJson s with
          | none =>
              right
              simp [hs, hp]
          | some v =>
              left
              simp [hs, hp]

/-- Witness for C8: a genuinely absent name with unparseable arguments is a
silent no-op, while the inherited `hasOwnProperty` throws. -/
theorem unregistered_name_is_noop_witness :
    entryPointsToFunctionCallHandler [getWeatherEp] []
        { name := some "unknownFn", arguments := some "not valid json" } = .ok none
    ∧ (entryPointsToFunctionCallHandler [getWeatherEp] []
        { name := some "hasOwnProperty", arguments := none } = .typeError
       ∨ entryPointsToFunctionCallHandler [getWeatherEp] []
        { name := some "hasOwnProperty", arguments := none } = .parseError) :=
  ⟨unregistered_name_is_noop.1 Nat [getWeatherEp] []
    { name := some "unknownFn", arguments := some "not valid json" }
    (by decide) rfl (by decide),
   unregistered_name_is_noop.2 Nat [getWeatherEp] []
    { name := some "hasOwnProperty", arguments := none }
    (by decide) rfl (by decide)⟩

/-- C9: registering under an existing id replaces the previous entry (last
write wins): the id reads back as the new function, every stored entry
under that id is the new function (so schema compilation and dispatch,
which consume the stored entries, see only it), entries under other ids
are untouched, and unregistering an absent id leaves the registry
unchanged. -/
theorem registry_last_write_wins :
    (∀ (α : Type) (reg : EntryPointRegistry α) (id : String)
        (ep : AnnotatedFunction α),
        regLookup (setEntryPoint reg id ep) id = some ep)
    ∧ (∀ (α : Type) (reg : EntryPointRegistry α) (id : String)
        (ep : AnnotatedFunction α) (id' : String), id' ≠ id →
        regLookup (setEntryPoint reg id ep) id' = regLookup reg id')
    ∧ (∀ (α : Type) (reg : EntryPointRegistry α) (id : String)
        (ep : AnnotatedFunction α) (p : String × AnnotatedFunction α),
        p ∈ setEntryPoint reg id ep → p.1 = id → p.2 = ep)
    ∧ (∀ (α : Type) (reg : EntryPointRegistry α) (id : String)
        (ep : AnnotatedFunction α) (p : String × AnnotatedFunction α),
        p ∈ setEntryPoint reg id ep → p.1 ≠ id → p ∈ reg)
    ∧ (∀ (α : Type) (reg : EntryPointRegistry α) (id : String),
        (∀ p ∈ reg, p.1 ≠ id) → removeEntryPoint reg id = reg) :=
  ⟨fun _ reg id ep => regLookup_setEntryPoint_self reg id ep,
   fun _ reg id ep id' h => regLookup_setEntryPoint_other reg id ep id' h,
   fun _ reg id ep p hp hid => setEntryPoint_only_new reg id ep p hp hid,
   fun _ reg id ep p hp hid => setEntryPoint_other_mem reg id ep p hp hid,
   fun _ reg id h => removeEntryPoint_absent reg id h⟩

/-- Witness for C9, on the fixture registry: re-register `id1`, look both
ids back up, check the stored entry, and delete an absent id. -/
theorem registry_last_write_wins_witness :
    regLookup (setEntryPoint regW "id1" epW3) "id1" = some epW3
    ∧ regLookup (setEntryPoint regW "id1" epW3) "id2" = regLookup regW "id2"
    ∧ ("id1", epW3).2 = epW3
    ∧ ("id2", epW2) ∈ regW
    ∧ removeEntryPoint [("id2", epW2)] "id1" = [("id2", epW2)] :=
  ⟨registry_last_write_wins.1 Nat regW "id1" epW3,
   registry_last_write_wins.2.1 Nat regW "id1" epW3 "id2" (by decide),
   registry_last_write_wins.2.2.1 Nat regW "id1" epW3 ("id1", epW3)
     (by
       rw [show setEntryPoint regW "id1" epW3 = [("id1", epW3), ("id2", epW2)] from rfl]
       exact List.mem_cons_self _ _)
     rfl,
   registry_last_write_wins.2.2.2.1 Nat regW "id1" epW3 ("id2", epW2)
     (by
       rw [show setEntryPoint regW "id1" epW3 = [("id1", epW3), ("id2", epW2)] from rfl]
       exact List.mem_cons_of_mem _ (List.mem_cons_self _ _))
     (by decide),
   registry_last_write_wins.2.2.2.2 Nat [("id2", epW2)] "id1"
     (by
       intro p hp
       rw [List.mem_singleton.mp hp]
       decide)⟩

/-- C10 counterexample: with absent arguments the marshalling loop reads
each annotation name off the empty array, so an annotation named `length`
receives the array's own `length` property — the number 0 — and an
annotation named `push` receives the inherited `Array.prototype.push`
function, rather than `undefined`. -/
theorem absent_arguments_length_collision :
    entryPointsToFunctionCallHandler
        [{ name := "f", description := "len", argumentAnnotations :=
            [{ name := "length", required := false }],
           implementation := (0 : Nat) }] []
        { name := some "f", arguments := none } =
      .ok (some (0, [JsValue.num 0]))
    ∧ entryPointsToFunctionCallHandler
        [{ name := "g", description := "psh", argumentAnnotations :=
            [{ name := "push", required := false }],
           implementation := (0 : Nat) }] []
        { name := some "g", arguments := none } =
      .ok (some (0, [JsValue.native "push"]))
    ∧ entryPointsToFunctionCallHandler
        [{ name := "f", description := "len", argumentAnnotations :=
            [{ name := "length", required := false }],
           implementation := (0 : Nat) }] []
        { name := some "f", arguments := none } ≠
      .ok (some (0, [JsValue.undefined])) := by
  refine ⟨rfl, rfl, ?_⟩
  intro hc
  rw [show entryPointsToFunctionCallHandler
        [{ name := "f", description := "len", argumentAnnotations :=
            [{ name := "length", required := false }],
           implementation := (0 : Nat) }] []
        { name := some "f", arguments := none } =
      .ok (some (0, [JsValue.num 0])) from rfl] at hc
  simp at hc

/-- C10 (amended): for a registered entry point with an absent or empty
arguments string, the handler skips the parse and raises no error, and
invokes the implementation with `undefined` in every positional slot (one
per annotation) — provided no annotation name collides with a property of
the empty array, own (`length`) or inherited
(`Array.prototype`/`Object.prototype` members such as `push` or
`toString`); colliding names receive that property's value instead. -/
theorem absent_arguments_yield_undefined (α : Type)
    (entryPoints : List (AnnotatedFunction α)) (msgs : List Message)
    (functionCall : FunctionCallPayload) (ep : AnnotatedFunction α)
    (hnp : ∀ e ∈ entryPoints, e.name ≠ "__proto__")
    (hlook : lookupEntryPoint entryPoints (functionCall.name.getD "") = some ep)
    (hargs : functionCall.arguments = none ∨ functionCall.arguments = some "")
    (hfree : ∀ a ∈ ep.argumentAnnotations, a.name ≠ "length"
      ∧ a.name ∉ arrayPrototypeKeys ∧ a.name ∉ objectPrototypeKeys) :
    entryPointsToFunctionCallHandler entryPoints msgs functionCall =
      .ok (some (ep.implementation,
        ep.argumentAnnotations.map (fun _ => JsValue.undefined))) := by
  have hdl : dispatchLookup entryPoints (functionCall.name.getD "") = .own ep := by
    unfold dispatchLookup
    rw [hlook]
  unfold entryPointsToFunctionCallHandler
  rw [hdl]
  rcases hargs with hargs | hargs <;> rw [hargs] <;>
    simp [marshalArgs_emptyArr ep.argumentAnnotations hfree]

/-- Witness for C10's amended theorem. -/
theorem absent_arguments_yield_undefined_witness :
    entryPointsToFunctionCallHandler [getWeatherEp] []
        { name := some "getWeather", arguments := none } =
      .ok (some (0, [JsValue.undefined, JsValue.undefined])) :=
  absent_arguments_yield_undefined Nat [getWeatherEp] []
    { name := some "getWeather", arguments := none } getWeatherEp
    (by decide) rfl (Or.inl rfl) (by decide)
